import Mathlib

/-!
Verification of the manga-compiler page-set resolver, a shallow embedding of
src/main.rs.

The embedding models the observable pipeline of the Rust `main`:

* naming-rule construction, main.rs lines 25-28: the anchored regex
  `^<escaped title>-(\d+)\.(jpg|jpeg|png)$` built with case_insensitive(true);
  since the title is passed through regex::escape it matches literally, so the
  whole matcher is the function `nameRxCaptures` below, which either rejects a
  filename or returns the captured digit group;
* the classification pass over the directory listing, lines 33-48
  (`classifyEntries`): walkdir items are either an I/O error, propagated by
  the `?` on line 34, or an entry with a name and a file-type flag; non-files
  are skipped, matches with a parsable u32 page number become page entries,
  everything else becomes noise;
* completeness validation, lines 61-70 (`pageNums`, `maxPageOf`,
  `missingOf`): sort by page number, take the last (largest) number, list the
  numbers of 1..=max that are not observed, and exit(1) when any are missing;
* archive assembly, lines 72-92: one stored entry per page, named by the
  original filename, in sorted order. File contents are modelled by a total
  map from filename to bytes; creating and finalizing the archive are
  modelled as succeeding, which is enough for every claim below.

Machine integers: the page number is a Rust u32; `parseU32` fails exactly
when the digit string denotes a value of 2^32 or more, as `str::parse::<u32>`
does on an all-digit input.  Case folding and the digit class are modelled on
ASCII, which covers every behaviour the claims mention.

`Vec::sort_unstable_by_key` guarantees only that the result is a permutation
of the input that is non-decreasing on the key, with the relative order of
equal keys unspecified; that contract is `SortUnstableSpec`.  The
deterministic pipeline uses one particular function satisfying the contract
(`sortByKey`, an insertion sort on the key).
-/

/-- Case-insensitive character comparison, modelling the case_insensitive
regex flag on ASCII. -/
def ciEqCh (a b : Char) : Bool := a.toLower == b.toLower

/-- Case-insensitive list comparison: same length, characters pairwise
case-insensitively equal. -/
def ciEqL : List Char → List Char → Bool
  | [], [] => true
  | a :: as, b :: bs => ciEqCh a b && ciEqL as bs
  | _, _ => false

/-- Strip a pattern from the front of a string, comparing characters
case-insensitively; returns the remainder on success. -/
def stripCI : List Char → List Char → Option (List Char)
  | [], s => some s
  | _ :: _, [] => none
  | p :: ps, c :: cs => if ciEqCh p c then stripCI ps cs else none

/-- Longest digit run at the front of the list, and the remainder: the
greedy matching of the capture group of the naming-rule regex. -/
def takeDigits : List Char → List Char × List Char
  | [] => ([], [])
  | c :: cs =>
    if c.isDigit then (c :: (takeDigits cs).1, (takeDigits cs).2) else ([], c :: cs)

/-- The fixed extension alternation of the naming rule, case-insensitive. -/
def extOk (e : List Char) : Bool :=
  e.map Char.toLower == "jpg".toList || e.map Char.toLower == "jpeg".toList ||
    e.map Char.toLower == "png".toList

/-- The naming rule of main.rs lines 25-28: the anchored case-insensitive
match of `<title>-<digits>.<ext>` with the title literal; returns the
captured digit group, or none when the filename is rejected.  The pattern is
anchored on both sides and the digit run cannot contain the dot, so the
greedy decomposition below is the unique one and coincides with the regex. -/
def nameRxCaptures (title fname : String) : Option String :=
  match stripCI (title.toList ++ ['-']) fname.toList with
  | none => none
  | some rest =>
    match (takeDigits rest).2 with
    | c :: e =>
      if c == '.' && !(takeDigits rest).1.isEmpty && extOk e then
        some (String.mk (takeDigits rest).1)
      else none
    | [] => none

/-- Numeric value of an ASCII digit. -/
def digitVal (c : Char) : Nat := c.toNat - 48

/-- Value denoted by a digit string, most significant first. -/
def digitsToNat (ds : List Char) : Nat := ds.foldl (fun a c => a * 10 + digitVal c) 0

/-- `str::parse::<u32>` on the captured digit group: succeeds on a non-empty
all-digit string whose value fits in a u32.  The regex capture group is
`\d+`, so no sign characters ever reach the parse. -/
def parseU32 (ds : List Char) : Option Nat :=
  if !ds.isEmpty && ds.all Char.isDigit then
    if digitsToNat ds < 4294967296 then some (digitsToNat ds) else none
  else none

/-- One item yielded by the walkdir iterator on main.rs line 33: either an
I/O error, or a directory entry with its filename and file-type flag. -/
inductive DirItem where
  | err (msg : String)
  | entry (fname : String) (isFile : Bool)

/-- The classification pass, main.rs lines 33-48.  A walkdir error is
propagated by the `?` on line 34 and aborts the run; non-files are skipped;
a filename matching the rule with a parsable page number becomes a page
entry, every other filename becomes noise.  Both output lists are in
discovery order. -/
def classifyEntries (title : String) :
    List DirItem → Except String (List (Nat × String) × List String)
  | [] => Except.ok ([], [])
  | DirItem.err e :: _ => Except.error e
  | DirItem.entry fname isFile :: rest =>
    if !isFile then classifyEntries title rest
    else
      match classifyEntries title rest with
      | Except.error e => Except.error e
      | Except.ok (pages, noise) =>
        match nameRxCaptures title fname with
        | some ds =>
          match parseU32 ds.toList with
          | some n => Except.ok ((n, fname) :: pages, noise)
          | none => Except.ok (pages, fname :: noise)
        | none => Except.ok (pages, fname :: noise)

/-- Whether a walkdir item is a regular-file entry, the test on
main.rs line 35. -/
def isFileItem : DirItem → Bool
  | DirItem.entry _ true => true
  | _ => false

/-- Ordering on page entries by page number, the key of the sort on
main.rs line 61. -/
def keyLe (a b : Nat × String) : Prop := a.1 ≤ b.1

instance : DecidableRel keyLe := fun a b => Nat.decLe a.1 b.1

instance : IsTotal (Nat × String) keyLe := ⟨fun a b => Nat.le_total a.1 b.1⟩

instance : IsTrans (Nat × String) keyLe := ⟨fun _ _ _ h h₂ => Nat.le_trans h h₂⟩

/-- The sort of main.rs line 61, as the deterministic sorted permutation the
pipeline uses.  `Vec::sort_unstable_by_key` promises only some sorted
permutation; see `SortUnstableSpec` for that contract. -/
def sortByKey (l : List (Nat × String)) : List (Nat × String) := List.insertionSort keyLe l

/-- The contract of `Vec::sort_unstable_by_key` on main.rs line 61: the
output is a permutation of the input, non-decreasing on the page number; the
relative order of entries with equal page numbers is unspecified. -/
def SortUnstableSpec (l l' : List (Nat × String)) : Prop :=
  l'.Perm l ∧ l'.Pairwise keyLe

/-- The page numbers of the sorted entries, main.rs line 62. -/
def pageNums (pages : List (Nat × String)) : List Nat := (sortByKey pages).map Prod.fst

/-- The largest page number, taken as the last of the sorted numbers,
main.rs line 63.  The default 0 is never used on the non-empty lists the
pipeline reaches it with. -/
def maxPageOf (pages : List (Nat × String)) : Nat := (pageNums pages).getLastD 0

/-- The missing-page computation of main.rs line 65: the numbers of the
range 1..=max that are not among the observed page numbers, in range
order. -/
def missingOf (pages : List (Nat × String)) : List Nat :=
  (List.range' 1 (maxPageOf pages)).filter (fun i => !(pageNums pages).contains i)

/-- Observable outcome of a run: success with the archive entries in order,
the missing-page exit of main.rs line 69, or a generic error return. -/
inductive Outcome where
  | success (outPath : String) (entries : List (String × List Nat))
  | missingExit (missing : List Nat)
  | error (msg : String)

/-- Process exit code of an outcome: 0 on success; `std::process::exit(1)`
on the missing-page path; and a `Result::Err` from the Rust `main` also
terminates the process with code 1. -/
def exitCode : Outcome → Nat
  | Outcome.success _ _ => 0
  | Outcome.missingExit _ => 1
  | Outcome.error _ => 1

/-- The message of the bail on main.rs line 58. -/
def noMatchMsg (title : String) : String :=
  "No valid image files found matching pattern " ++ title ++ "-<number>.<ext>"

/-- The pipeline of `main`, main.rs lines 30-92, from the directory listing
and a map giving each file its byte content: classify, fail when no file
matched, sort, exit when pages are missing, otherwise archive one entry per
page, named by the original filename, in sorted order. -/
def mainRun (title : String) (items : List DirItem) (contents : String → List Nat)
    (outPath : String) : Outcome :=
  match classifyEntries title items with
  | Except.error e => Outcome.error e
  | Except.ok (pages, _) =>
    if pages.isEmpty then Outcome.error (noMatchMsg title)
    else
      if (missingOf pages).isEmpty then
        Outcome.success outPath ((sortByKey pages).map (fun p => (p.2, contents p.2)))
      else Outcome.missingExit (missingOf pages)

/-! ### Basic facts about the sort and the missing-page computation -/

lemma sortByKey_perm (l : List (Nat × String)) : (sortByKey l).Perm l :=
  List.perm_insertionSort keyLe l

lemma sortByKey_sorted (l : List (Nat × String)) : (sortByKey l).Pairwise keyLe :=
  List.sorted_insertionSort keyLe l

lemma sortByKey_spec (l : List (Nat × String)) : SortUnstableSpec l (sortByKey l) :=
  ⟨sortByKey_perm l, sortByKey_sorted l⟩

lemma pageNums_perm (l : List (Nat × String)) : (pageNums l).Perm (l.map Prod.fst) :=
  (sortByKey_perm l).map Prod.fst

lemma pageNums_sorted (l : List (Nat × String)) : (pageNums l).Pairwise (· ≤ ·) :=
  (sortByKey_sorted l).map Prod.fst (fun _ _ h => h)

lemma le_getLastD_sorted (l : List Nat) : ∀ (a : Nat), (a :: l).Pairwise (· ≤ ·) →
    ∀ x ∈ a :: l, x ≤ l.getLastD a := by
  induction l with
  | nil =>
    intro a _ x hx
    rcases List.mem_singleton.mp hx with rfl
    simp [List.getLastD]
  | cons b t ih =>
    intro a hp x hx
    rw [List.getLastD_cons]
    rcases List.mem_cons.mp hx with rfl | hx2
    · have hab : x ≤ b := (List.pairwise_cons.mp hp).1 b (List.mem_cons_self b t)
      have hb : b ≤ t.getLastD b :=
        ih b (List.pairwise_cons.mp hp).2 b (List.mem_cons_self b t)
      omega
    · exact ih b (List.pairwise_cons.mp hp).2 x hx2

lemma le_getLastD_zero (l : List Nat) (hl : l.Pairwise (· ≤ ·)) :
    ∀ x ∈ l, x ≤ l.getLastD 0 := by
  cases l with
  | nil => intro x hx; cases hx
  | cons a t =>
    intro x hx
    rw [List.getLastD_cons]
    exact le_getLastD_sorted t a hl x hx

lemma getLastD_zero_mem (l : List Nat) (h : l ≠ []) : l.getLastD 0 ∈ l := by
  cases l with
  | nil => exact absurd rfl h
  | cons a t =>
    rw [List.getLastD_cons]
    exact List.getLastD_mem_cons t a

lemma pageNums_ne_nil (pages : List (Nat × String)) (h : pages ≠ []) :
    pageNums pages ≠ [] := by
  intro h0
  have hlen := (pageNums_perm pages).length_eq
  rw [h0, List.length_map] at hlen
  exact h (List.length_eq_zero.mp hlen.symm)

lemma maxPageOf_mem (pages : List (Nat × String)) (h : pages ≠ []) :
    maxPageOf pages ∈ pages.map Prod.fst := by
  have hm := getLastD_zero_mem (pageNums pages) (pageNums_ne_nil pages h)
  exact ((pageNums_perm pages).mem_iff).mp hm

lemma le_maxPageOf (pages : List (Nat × String)) :
    ∀ x ∈ pages.map Prod.fst, x ≤ maxPageOf pages := by
  intro x hx
  have hx2 : x ∈ pageNums pages := ((pageNums_perm pages).mem_iff).mpr hx
  exact le_getLastD_zero (pageNums pages) (pageNums_sorted pages) x hx2

lemma mem_missingOf (pages : List (Nat × String)) (i : Nat) :
    i ∈ missingOf pages ↔ 1 ≤ i ∧ i ≤ maxPageOf pages ∧ i ∉ pages.map Prod.fst := by
  unfold missingOf
  rw [List.mem_filter, List.mem_range'_1]
  have hcont : ((!(pageNums pages).contains i) = true) ↔ i ∉ pages.map Prod.fst := by
    simp [(pageNums_perm pages).mem_iff]
  rw [hcont]
  constructor
  · rintro ⟨⟨h1, h2⟩, h3⟩
    exact ⟨h1, by omega, h3⟩
  · rintro ⟨h1, h2, h3⟩
    exact ⟨⟨h1, by omega⟩, h3⟩

lemma missingOf_sorted (pages : List (Nat × String)) :
    (missingOf pages).Pairwise (· < ·) :=
  (List.pairwise_lt_range' 1 (maxPageOf pages)).filter _

/-! ### Decomposition of the naming-rule matcher -/

lemma stripCI_some : ∀ (p s r : List Char), stripCI p s = some r →
    ∃ t, s = t ++ r ∧ ciEqL p t = true := by
  intro p
  induction p with
  | nil =>
    intro s r h
    simp only [stripCI, Option.some.injEq] at h
    exact ⟨[], by rw [h]; rfl, rfl⟩
  | cons a ps ih =>
    intro s r h
    cases s with
    | nil => simp [stripCI] at h
    | cons c cs =>
      simp only [stripCI] at h
      by_cases hac : ciEqCh a c = true
      · rw [if_pos hac] at h
        obtain ⟨t, ht, hci⟩ := ih cs r h
        exact ⟨c :: t, by rw [ht]; rfl, by simp [ciEqL, hac, hci]⟩
      · rw [if_neg hac] at h
        cases h

lemma takeDigits_spec : ∀ (s : List Char),
    s = (takeDigits s).1 ++ (takeDigits s).2 ∧ (takeDigits s).1.all Char.isDigit = true := by
  intro s
  induction s with
  | nil => exact ⟨rfl, rfl⟩
  | cons c cs ih =>
    by_cases hc : c.isDigit = true
    · simp only [takeDigits, hc, if_true]
      exact ⟨by rw [List.cons_append, ← ih.1], by simp [hc, ih.2]⟩
    · simp only [takeDigits, hc, if_false]
      exact ⟨rfl, rfl⟩

lemma nameRx_decomp (title fname ds : String)
    (h : nameRxCaptures title fname = some ds) :
    ∃ t d e, fname.toList = t ++ d ++ '.' :: e ∧
      ciEqL (title.toList ++ ['-']) t = true ∧ d ≠ [] ∧
      d.all Char.isDigit = true ∧ extOk e = true ∧ ds = String.mk d := by
  unfold nameRxCaptures at h
  split at h
  · cases h
  · rename_i rest hs
    split at h
    · rename_i c e hr
      split at h
      · rename_i hcond
        obtain ⟨t, ht, hci⟩ := stripCI_some _ _ _ hs
        obtain ⟨hsplit, hdig⟩ := takeDigits_spec rest
        simp only [Bool.and_eq_true, beq_iff_eq, Bool.not_eq_true'] at hcond
        obtain ⟨⟨hdot, hne⟩, hext⟩ := hcond
        refine ⟨t, (takeDigits rest).1, e, ?_, hci, ?_, hdig, hext, ?_⟩
        · rw [ht]
          conv_lhs => rw [hsplit]
          rw [hr, hdot]
          simp [List.append_assoc]
        · intro h0
          rw [h0] at hne
          cases hne
        · cases h
          rfl
      · cases h
    · cases h

/-! ### Branch behaviour of the pipeline -/

lemma mainRun_ok_success (title : String) (items : List DirItem)
    (contents : String → List Nat) (out : String)
    (pages : List (Nat × String)) (noise : List String)
    (hc : classifyEntries title items = Except.ok (pages, noise))
    (hne : pages ≠ []) (hcov : missingOf pages = []) :
    mainRun title items contents out =
      Outcome.success out ((sortByKey pages).map (fun p => (p.2, contents p.2))) := by
  unfold mainRun
  rw [hc]
  simp [List.isEmpty_iff, hne, hcov]

lemma mainRun_ok_missing (title : String) (items : List DirItem)
    (contents : String → List Nat) (out : String)
    (pages : List (Nat × String)) (noise : List String)
    (hc : classifyEntries title items = Except.ok (pages, noise))
    (hne : pages ≠ []) (hmiss : missingOf pages ≠ []) :
    mainRun title items contents out = Outcome.missingExit (missingOf pages) := by
  unfold mainRun
  rw [hc]
  simp [List.isEmpty_iff, hne, hmiss]

lemma mainRun_ok_empty (title : String) (items : List DirItem)
    (contents : String → List Nat) (out : String) (noise : List String)
    (hc : classifyEntries title items = Except.ok ([], noise)) :
    mainRun title items contents out = Outcome.error (noMatchMsg title) := by
  unfold mainRun
  rw [hc]
  simp

/-! ### Totality of the classification pass on error-free listings -/

lemma classify_total (title : String) : ∀ (items : List DirItem),
    (∀ m, DirItem.err m ∉ items) →
    ∃ pages noise, classifyEntries title items = Except.ok (pages, noise) ∧
      pages.length + noise.length = (items.filter isFileItem).length := by
  intro items
  induction items with
  | nil => exact fun _ => ⟨[], [], rfl, rfl⟩
  | cons it rest ih =>
    intro h
    have hrest : ∀ m, DirItem.err m ∉ rest := fun m hm => h m (List.mem_cons_of_mem _ hm)
    obtain ⟨pages, noise, heq, hlen⟩ := ih hrest
    cases it with
    | err m => exact absurd (List.mem_cons_self _ _) (h m)
    | entry f b =>
      cases b with
      | false =>
        refine ⟨pages, noise, ?_, ?_⟩
        · simpa [classifyEntries] using heq
        · simpa [List.filter_cons, isFileItem] using hlen
      | true =>
        cases hm : nameRxCaptures title f with
        | none =>
          refine ⟨pages, f :: noise, ?_, ?_⟩
          · simp [classifyEntries, heq, hm]
          · simp only [List.filter_cons, isFileItem, if_true, List.length_cons,
              List.length_cons]
            omega
        | some ds =>
          cases hp : parseU32 ds.toList with
          | none =>
            refine ⟨pages, f :: noise, ?_, ?_⟩
            · simp [classifyEntries, heq, hm]
              rw [show parseU32 ds.data = none from hp]
            · simp only [List.filter_cons, isFileItem, if_true, List.length_cons]
              omega
          | some n =>
            refine ⟨(n, f) :: pages, noise, ?_, ?_⟩
            · simp [classifyEntries, heq, hm]
              rw [show parseU32 ds.data = some n from hp]
            · simp only [List.filter_cons, isFileItem, if_true, List.length_cons]
              omega

/-! ### Entries with a common page number in a sorted list are contiguous -/

lemma filter_key_front : ∀ (l : List (Nat × String)) (n : Nat),
    (∀ p ∈ l, n ≤ p.1) → l.Pairwise keyLe →
    ∃ t, l.filter (fun p => p.1 == n) ++ t = l := by
  intro l
  induction l with
  | nil => exact fun _ _ _ => ⟨[], rfl⟩
  | cons y l ih =>
    intro n hlo hp
    have hy : ∀ q ∈ l, y.1 ≤ q.1 := (List.pairwise_cons.mp hp).1
    have hl : l.Pairwise keyLe := (List.pairwise_cons.mp hp).2
    by_cases hyn : (y.1 == n) = true
    · obtain ⟨t, ht⟩ := ih n (fun p hp2 => hlo p (List.mem_cons_of_mem _ hp2)) hl
      refine ⟨t, ?_⟩
      rw [List.filter_cons, if_pos hyn, List.cons_append, ht]
    · have hny : n ≤ y.1 := hlo y (List.mem_cons_self _ _)
      have hlt : n < y.1 := by
        rcases Nat.lt_or_ge n y.1 with h1 | h1
        · exact h1
        · exact absurd (Nat.le_antisymm hny h1).symm (by simpa using hyn)
      have hfl : l.filter (fun p => p.1 == n) = [] := by
        rw [List.filter_eq_nil_iff]
        intro q hq
        have := hy q hq
        simp only [beq_iff_eq]
        omega
      refine ⟨y :: l, ?_⟩
      rw [List.filter_cons, if_neg hyn, hfl]
      rfl

lemma filter_key_contiguous : ∀ (l : List (Nat × String)) (n : Nat), l.Pairwise keyLe →
    ∃ s t, s ++ l.filter (fun p => p.1 == n) ++ t = l := by
  intro l
  induction l with
  | nil => exact fun _ _ => ⟨[], [], rfl⟩
  | cons x l ih =>
    intro n hp
    have hx : ∀ q ∈ l, x.1 ≤ q.1 := (List.pairwise_cons.mp hp).1
    have hl : l.Pairwise keyLe := (List.pairwise_cons.mp hp).2
    by_cases hxn : (x.1 == n) = true
    · have hxeq : x.1 = n := by simpa using hxn
      obtain ⟨t, ht⟩ := filter_key_front l n (fun p hp2 => hxeq ▸ hx p hp2) hl
      refine ⟨[], t, ?_⟩
      rw [List.nil_append, List.filter_cons, if_pos hxn, List.cons_append, ht]
    · obtain ⟨s, t, hst⟩ := ih n hl
      refine ⟨x :: s, t, ?_⟩
      rw [List.filter_cons, if_neg hxn]
      simp only [List.cons_append, List.append_assoc] at hst ⊢
      rw [hst]

/-! ### The claims -/

/-- C1: when classification yields a non-empty page set and some number of
the range 1..max is unobserved, the run ends in the missing-page exit whose
list holds exactly the integers of [1, max] that are not observed (max
being the largest observed page number), in ascending order, and no archive
outcome is produced. -/
theorem c1_gap_detection (title : String) (items : List DirItem)
    (contents : String → List Nat) (out : String)
    (pages : List (Nat × String)) (noise : List String)
    (hc : classifyEntries title items = Except.ok (pages, noise))
    (hne : pages ≠ []) (hmiss : missingOf pages ≠ []) :
    mainRun title items contents out = Outcome.missingExit (missingOf pages) ∧
    (∀ i, i ∈ missingOf pages ↔
      1 ≤ i ∧ i ≤ maxPageOf pages ∧ i ∉ pages.map Prod.fst) ∧
    (missingOf pages).Pairwise (· < ·) ∧
    maxPageOf pages ∈ pages.map Prod.fst ∧
    (∀ x ∈ pages.map Prod.fst, x ≤ maxPageOf pages) ∧
    (∀ o es, mainRun title items contents out ≠ Outcome.success o es) := by
  have hmain := mainRun_ok_missing title items contents out pages noise hc hne hmiss
  refine ⟨hmain, fun i => mem_missingOf pages i, missingOf_sorted pages,
    maxPageOf_mem pages hne, le_maxPageOf pages, ?_⟩
  intro o es h
  rw [hmain] at h
  cases h

/-- Witness for C1: observed pages 1, 2, 4 report missing exactly 3 and take
the missing-page exit. -/
theorem c1_gap_detection_witness :
    mainRun "T" [DirItem.entry "T-1.png" true, DirItem.entry "T-2.png" true,
      DirItem.entry "T-4.png" true] (fun _ => []) "T.cbz" = Outcome.missingExit [3] := by
  have h := c1_gap_detection "T" [DirItem.entry "T-1.png" true, DirItem.entry "T-2.png" true,
    DirItem.entry "T-4.png" true] (fun _ => []) "T.cbz"
    [(1, "T-1.png"), (2, "T-2.png"), (4, "T-4.png")] [] rfl (by decide) (by decide)
  rw [h.1]
  rfl

/-- C2: on any successful run the archive entry list is the matched entries
sorted ascending by page number: entry names are exactly the original
matched filenames, one per matched file, and the page numbers of the sorted
entries are non-decreasing, whatever the listing order was. -/
theorem c2_entry_order (title : String) (items : List DirItem)
    (contents : String → List Nat) (out : String)
    (pages : List (Nat × String)) (noise : List String)
    (es : List (String × List Nat))
    (hc : classifyEntries title items = Except.ok (pages, noise))
    (hrun : mainRun title items contents out = Outcome.success out es) :
    es = (sortByKey pages).map (fun p => (p.2, contents p.2)) ∧
    (es.map Prod.fst).Perm (pages.map Prod.snd) ∧
    es.length = pages.length ∧
    ((sortByKey pages).map Prod.fst).Pairwise (· ≤ ·) ∧
    (sortByKey pages).Perm pages := by
  by_cases hne : pages = []
  · subst hne
    rw [mainRun_ok_empty title items contents out noise hc] at hrun
    cases hrun
  · by_cases hcov : missingOf pages = []
    · rw [mainRun_ok_success title items contents out pages noise hc hne hcov] at hrun
      injection hrun with ho hes
      refine ⟨hes.symm, ?_, ?_, pageNums_sorted pages, sortByKey_perm pages⟩
      · rw [← hes, List.map_map]
        exact (sortByKey_perm pages).map Prod.snd
      · rw [← hes, List.length_map]
        exact (sortByKey_perm pages).length_eq
    · rw [mainRun_ok_missing title items contents out pages noise hc hne hcov] at hrun
      cases hrun

/-- Witness for C2: a listing yielding pages 10, 2, 1, 3, ..., 9 succeeds
with Title-2.png before Title-10.png, in numeric rather than lexicographic
order. -/
theorem c2_entry_order_witness :
    (([("Title-1.png", ([] : List Nat)), ("Title-2.png", []), ("Title-3.png", []),
      ("Title-4.png", []), ("Title-5.png", []), ("Title-6.png", []),
      ("Title-7.png", []), ("Title-8.png", []), ("Title-9.png", []),
      ("Title-10.png", [])]).map Prod.fst).Perm
      (([((10 : Nat), "Title-10.png"), (2, "Title-2.png"), (1, "Title-1.png"),
        (3, "Title-3.png"), (4, "Title-4.png"), (5, "Title-5.png"),
        (6, "Title-6.png"), (7, "Title-7.png"), (8, "Title-8.png"),
        (9, "Title-9.png")]).map Prod.snd) :=
  (c2_entry_order "Title"
    [DirItem.entry "Title-10.png" true, DirItem.entry "Title-2.png" true,
      DirItem.entry "Title-1.png" true, DirItem.entry "Title-3.png" true,
      DirItem.entry "Title-4.png" true, DirItem.entry "Title-5.png" true,
      DirItem.entry "Title-6.png" true, DirItem.entry "Title-7.png" true,
      DirItem.entry "Title-8.png" true, DirItem.entry "Title-9.png" true]
    (fun _ => []) "Title.cbz"
    [(10, "Title-10.png"), (2, "Title-2.png"), (1, "Title-1.png"),
      (3, "Title-3.png"), (4, "Title-4.png"), (5, "Title-5.png"),
      (6, "Title-6.png"), (7, "Title-7.png"), (8, "Title-8.png"),
      (9, "Title-9.png")] []
    [("Title-1.png", []), ("Title-2.png", []), ("Title-3.png", []),
      ("Title-4.png", []), ("Title-5.png", []), ("Title-6.png", []),
      ("Title-7.png", []), ("Title-8.png", []), ("Title-9.png", []),
      ("Title-10.png", [])] rfl rfl).2.1

/-- C3: when no candidate file matched the naming rule, the run fails with
the no-matching-files error, whose message carries the title and the
expected pattern shape, and no archive outcome is produced. -/
theorem c3_no_match_failure (title : String) (items : List DirItem)
    (contents : String → List Nat) (out : String) (noise : List String)
    (hc : classifyEntries title items = Except.ok ([], noise)) :
    mainRun title items contents out = Outcome.error (noMatchMsg title) ∧
    noMatchMsg title =
      "No valid image files found matching pattern " ++ title ++ "-<number>.<ext>" ∧
    (∀ o es, mainRun title items contents out ≠ Outcome.success o es) := by
  have hmain := mainRun_ok_empty title items contents out noise hc
  refine ⟨hmain, rfl, ?_⟩
  intro o es h
  rw [hmain] at h
  cases h

/-- Witness for C3: a directory holding only readme.txt fails with the
no-matching-files error. -/
theorem c3_no_match_failure_witness :
    mainRun "T" [DirItem.entry "readme.txt" true] (fun _ => []) "T.cbz" =
      Outcome.error (noMatchMsg "T") :=
  (c3_no_match_failure "T" [DirItem.entry "readme.txt" true] (fun _ => []) "T.cbz"
    ["readme.txt"] rfl).1

/-- C4: the title is matched literally, not as a sub-pattern: with title
vol.1 the file vol.1-1.png matches while volX1-1.png does not; and matching
is anchored: every accepted filename decomposes in full into a
case-insensitive literal occurrence of the title and a dash, the captured
digits, a dot and a recognized extension, so no partial or substring match
is accepted. -/
theorem c4_literal_anchored :
    nameRxCaptures "vol.1" "vol.1-1.png" = some "1" ∧
    nameRxCaptures "vol.1" "volX1-1.png" = none ∧
    ∀ title fname ds, nameRxCaptures title fname = some ds →
      ∃ t d e, fname.toList = t ++ d ++ '.' :: e ∧
        ciEqL (title.toList ++ ['-']) t = true ∧ d ≠ [] ∧
        d.all Char.isDigit = true ∧ extOk e = true ∧ ds = String.mk d := by
  refine ⟨rfl, rfl, ?_⟩
  intro title fname ds h
  exact nameRx_decomp title fname ds h

/-- Witness for C4: the anchored decomposition at the literal match
vol.1-1.png. -/
theorem c4_literal_anchored_witness :
    ∃ t d e, ("vol.1-1.png").toList = t ++ d ++ '.' :: e ∧
      ciEqL (("vol.1").toList ++ ['-']) t = true ∧ d ≠ [] ∧
      d.all Char.isDigit = true ∧ extOk e = true ∧ "1" = String.mk d :=
  c4_literal_anchored.2.2 "vol.1" "vol.1-1.png" "1" rfl

/-- C5: matching is case-insensitive on both the title and the extension,
and the extension set is exactly jpg, jpeg, png: with title Comic the files
Comic-1.PNG, comic-2.jpg and COMIC-3.Jpeg classify to pages 1, 2, 3, while
every accepted filename ends in a dot followed by jpg, jpeg or png up to
case, so no other extension is accepted. -/
theorem c5_case_and_extensions :
    classifyEntries "Comic" [DirItem.entry "Comic-1.PNG" true,
      DirItem.entry "comic-2.jpg" true, DirItem.entry "COMIC-3.Jpeg" true] =
      Except.ok ([(1, "Comic-1.PNG"), (2, "comic-2.jpg"), (3, "COMIC-3.Jpeg")], []) ∧
    nameRxCaptures "Comic" "Comic-4.gif" = none ∧
    nameRxCaptures "Comic" "Comic-4.pngx" = none ∧
    ∀ title fname ds, nameRxCaptures title fname = some ds →
      ∃ t d e, fname.toList = t ++ d ++ '.' :: e ∧
        (e.map Char.toLower = "jpg".toList ∨ e.map Char.toLower = "jpeg".toList ∨
          e.map Char.toLower = "png".toList) := by
  refine ⟨rfl, rfl, rfl, ?_⟩
  intro title fname ds h
  obtain ⟨t, d, e, hdec, hci, hne, hdig, hext, hds⟩ := nameRx_decomp title fname ds h
  refine ⟨t, d, e, hdec, ?_⟩
  unfold extOk at hext
  simp only [Bool.or_eq_true, beq_iff_eq] at hext
  tauto

/-- Witness for C5: the lowercased extension of the accepted comic-2.jpg is
in the fixed set. -/
theorem c5_case_and_extensions_witness :
    ∃ t d e, ("comic-2.jpg").toList = t ++ d ++ '.' :: e ∧
      (e.map Char.toLower = "jpg".toList ∨ e.map Char.toLower = "jpeg".toList ∨
        e.map Char.toLower = "png".toList) :=
  c5_case_and_extensions.2.2.2 "Comic" "comic-2.jpg" "2" rfl

/-- C6 counterexample: a walkdir item carrying an I/O error is propagated by
the `?` on main.rs line 34, so the classification pass does fail on such a
listing and the error aborts the run. -/
theorem c6_counterexample :
    classifyEntries "T" [DirItem.err "permission denied"] =
      Except.error "permission denied" ∧
    mainRun "T" [DirItem.err "permission denied"] (fun _ => []) "T.cbz" =
      Outcome.error "permission denied" := ⟨rfl, rfl⟩

/-- C6 amended: on a listing free of walkdir errors the classification pass
never fails: it returns normally, with every regular-file entry landing in
exactly one of the two output lists (pages or noise); absence of matches is
only reported downstream. -/
theorem c6_classification_total (title : String) (items : List DirItem)
    (h : ∀ m, DirItem.err m ∉ items) :
    ∃ pages noise, classifyEntries title items = Except.ok (pages, noise) ∧
      pages.length + noise.length = (items.filter isFileItem).length :=
  classify_total title items h

/-- Witness for C6: an error-free listing with two files and a
subdirectory classifies normally, the two files accounted for. -/
theorem c6_classification_total_witness :
    ∃ pages noise, classifyEntries "T" [DirItem.entry "T-1.png" true,
      DirItem.entry "notes.txt" true, DirItem.entry "subdir" false] =
        Except.ok (pages, noise) ∧
      pages.length + noise.length =
        ([DirItem.entry "T-1.png" true, DirItem.entry "notes.txt" true,
          DirItem.entry "subdir" false].filter isFileItem).length :=
  c6_classification_total "T" _ (by intro m; simp)

/-- C7 counterexample: the missing-page exit and a generic failure both
terminate the process with exit code 1, so the missing-page code is not
different from the generic failure code. -/
theorem c7_counterexample :
    mainRun "T" [DirItem.entry "T-2.png" true] (fun _ => []) "T.cbz" =
      Outcome.missingExit [1] ∧
    mainRun "T" [DirItem.entry "readme.txt" true] (fun _ => []) "T.cbz" =
      Outcome.error (noMatchMsg "T") ∧
    exitCode (Outcome.missingExit [1]) = 1 ∧
    exitCode (Outcome.error (noMatchMsg "T")) = 1 := ⟨rfl, rfl, rfl, rfl⟩

/-- C7 amended: success exits 0; an incomplete page sequence exits non-zero
through the direct process::exit(1) path; every other error also exits 1, so
the missing-page code is non-zero but numerically equal to the generic
failure code. -/
theorem c7_exit_codes (title : String) (items : List DirItem)
    (contents : String → List Nat) (out : String) :
    (∀ o es, mainRun title items contents out = Outcome.success o es →
      exitCode (mainRun title items contents out) = 0) ∧
    (∀ m, mainRun title items contents out = Outcome.missingExit m →
      exitCode (mainRun title items contents out) = 1) ∧
    (∀ e, mainRun title items contents out = Outcome.error e →
      exitCode (mainRun title items contents out) = 1) := by
  refine ⟨?_, ?_, ?_⟩
  · intro o es h
    rw [h]
    rfl
  · intro m h
    rw [h]
    rfl
  · intro e h
    rw [h]
    rfl

/-- Witness for C7: a complete one-page run exits with code 0. -/
theorem c7_exit_codes_witness :
    exitCode (mainRun "T" [DirItem.entry "T-1.png" true] (fun _ => []) "T.cbz") = 0 :=
  (c7_exit_codes "T" [DirItem.entry "T-1.png" true] (fun _ => []) "T.cbz").1
    "T.cbz" [("T-1.png", [])] rfl

/-- C8: a digit group exceeding the u32 range is recorded as noise, exactly
like a pattern miss, and noise never changes the outcome by itself: whenever
the matched subset is non-empty and covers 1..max, the run succeeds and
archives exactly the matched subset, whatever noise was recorded. -/
theorem c8_noise_nonfatal (title : String) (items : List DirItem)
    (contents : String → List Nat) (out : String)
    (pages : List (Nat × String)) (noise : List String)
    (hc : classifyEntries title items = Except.ok (pages, noise))
    (hne : pages ≠ []) (hcov : missingOf pages = []) :
    mainRun title items contents out =
      Outcome.success out ((sortByKey pages).map (fun p => (p.2, contents p.2))) ∧
    nameRxCaptures "T" "T-4294967296.png" = some "4294967296" ∧
    parseU32 ("4294967296".toList) = none ∧
    classifyEntries "T" [DirItem.entry "T-4294967296.png" true,
      DirItem.entry "readme.txt" true] =
      Except.ok ([], ["T-4294967296.png", "readme.txt"]) :=
  ⟨mainRun_ok_success title items contents out pages noise hc hne hcov, rfl, rfl, rfl⟩

/-- Witness for C8: a directory mixing T-1.png with readme.txt still
succeeds, archiving only the matching file. -/
theorem c8_noise_nonfatal_witness :
    mainRun "T" [DirItem.entry "T-1.png" true, DirItem.entry "readme.txt" true]
      (fun _ => []) "T.cbz" = Outcome.success "T.cbz" [("T-1.png", [])] :=
  (c8_noise_nonfatal "T" [DirItem.entry "T-1.png" true, DirItem.entry "readme.txt" true]
    (fun _ => []) "T.cbz" [(1, "T-1.png")] ["readme.txt"] rfl (by decide) rfl).1

/-- C9 counterexample: the contract of sort_unstable_by_key admits, for two
entries both claiming page 1, the sorted output that swaps their discovery
order, so the sort is not stable with respect to discovery order. -/
theorem c9_counterexample :
    SortUnstableSpec [(1, "a.png"), (1, "b.png")] [(1, "b.png"), (1, "a.png")] ∧
    [((1 : Nat), "b.png"), (1, "a.png")] ≠ [(1, "a.png"), (1, "b.png")] := by
  refine ⟨⟨List.Perm.swap (1, "a.png") (1, "b.png") [], ?_⟩, by decide⟩
  simp [List.pairwise_cons, keyLe]

/-- C9 amended: two matched files with the same page number are both kept:
in every output admitted by the sort contract, the entries carrying that
number are exactly those two, as separate entries, and they form a
contiguous (order-adjacent) block; their relative order is unspecified
rather than discovery order.  The sort the pipeline uses satisfies the
contract. -/
theorem c9_duplicates_kept_adjacent (l l' : List (Nat × String)) (n : Nat)
    (e₁ e₂ : Nat × String)
    (hf : l.filter (fun p => p.1 == n) = [e₁, e₂])
    (hs : SortUnstableSpec l l') :
    (l'.filter (fun p => p.1 == n)).Perm [e₁, e₂] ∧
    (∃ s t, s ++ l'.filter (fun p => p.1 == n) ++ t = l') ∧
    SortUnstableSpec l (sortByKey l) := by
  refine ⟨?_, filter_key_contiguous l' n hs.2, sortByKey_spec l⟩
  have hp := hs.1.filter (fun p => p.1 == n)
  rw [hf] at hp
  exact hp

/-- Witness for C9: sorting pages 1, 2, 1 keeps both page-1 entries as
separate entries of the output. -/
theorem c9_duplicates_kept_adjacent_witness :
    ((sortByKey [(1, "a.png"), (2, "c.png"), (1, "b.png")]).filter
      (fun p => p.1 == 1)).Perm [((1 : Nat), "a.png"), (1, "b.png")] :=
  (c9_duplicates_kept_adjacent [(1, "a.png"), (2, "c.png"), (1, "b.png")]
    (sortByKey [(1, "a.png"), (2, "c.png"), (1, "b.png")]) 1
    (1, "a.png") (1, "b.png") rfl (sortByKey_spec _)).1

/-- C10: page number 0 is accepted: T-0.png matches and parses to page 0,
page 0 is never reported missing (the checked range starts at 1), and when
the largest observed number is 0 the range [1, 0] is empty, so validation
passes and the archive holding that single file is written. -/
theorem c10_page_zero :
    nameRxCaptures "T" "T-0.png" = some "0" ∧
    parseU32 ("0".toList) = some 0 ∧
    (∀ pages : List (Nat × String), 0 ∉ missingOf pages) ∧
    missingOf [(0, "T-0.png")] = [] ∧
    mainRun "T" [DirItem.entry "T-0.png" true] (fun _ => [7, 7, 7]) "T.cbz" =
      Outcome.success "T.cbz" [("T-0.png", [7, 7, 7])] := by
  refine ⟨rfl, rfl, ?_, rfl, rfl⟩
  intro pages h0
  have h1 := ((mem_missingOf pages 0).mp h0).1
  omega

/-- Witness for C10: page 0 is not missing from a page set with largest
number 5. -/
theorem c10_page_zero_witness : 0 ∉ missingOf [(5, "x.png")] :=
  c10_page_zero.2.2.1 [(5, "x.png")]
